import Mathlib

/-!
Shallow embedding of the weighted-routing and autoscaling lambdas
(`router-lambda.py`, `asg-activity-lambda.py`, `endpoint-state-lambda.py`).
External collaborators (the key-value store, the control-plane API, the
wall clock) are passed in as explicit arguments; a Python exception is
modelled as `none` / `Except.error`.
-/

namespace Router

/-- Error taxonomy of `get_next_server` in `router-lambda.py`: the
`total_weight <= 0` check raises the "Invalid server weights configuration"
`LoadBalancerError`; any other raised exception (e.g. an index error) is
wrapped as a generic failure. -/
inductive RouteError where
  | invalidConfiguration
  | otherFailure
  deriving DecidableEq

/-- The dictionary returned by `get_next_server`: the selected server, the
reported request count (`request_count + 1`), and whether the trailing
fallback branch (the one that logs "Used fallback server selection" and adds
a `warning` key) produced it. -/
structure Selection where
  server : String
  requestCount : Nat
  usedFallbackBranch : Bool
  deriving DecidableEq

/-- The `for i, weight in enumerate(weights): cumulative += weight;
if position <= cumulative: return i` loop of `get_next_server`, returning the
index of the first server whose cumulative weight reaches `position`
(`none` when the loop falls through). -/
def selectLoop : List Int → Int → Int → Option Nat
  | [], _, _ => none
  | w :: ws, position, cumulative =>
    if position ≤ cumulative + w then some 0
    else (selectLoop ws position (cumulative + w)).map Nat.succ

/-- The function `WeightedLoadBalancer.get_next_server`, with the configuration
(`servers`, `weights`) and the counter collaborator's outcome passed in:
`counter = some c` is a successful atomic increment returning previous value
`c`; `counter = none` is a collaborator failure, in which case the caller
substitutes the fallback counter `int(time.time()*1000) % 1000` carried in
the error details (`wallClockMs % 1000`). -/
def get_next_server (servers : List String) (weights : List Int)
    (counter : Option Nat) (wallClockMs : Nat) : Except RouteError Selection :=
  let request_count : Nat := counter.getD (wallClockMs % 1000)
  let total_weight : Int := weights.sum
  if total_weight ≤ 0 then Except.error RouteError.invalidConfiguration
  else
    let position : Int := (request_count : Int) % total_weight + 1
    match selectLoop weights position 0 with
    | some i =>
      match servers.get? i with
      | some s => Except.ok ⟨s, request_count + 1, false⟩
      | none => Except.error RouteError.otherFailure
    | none =>
      match servers.get? 0 with
      | some s => Except.ok ⟨s, request_count + 1, true⟩
      | none => Except.error RouteError.otherFailure

end Router

/-- If `position ≤ cumulative + (sum of remaining weights)` and the walk has
not already overshot (`cumulative < position`), the cumulative loop returns
an index. -/
theorem selectLoop_isSome (ws : List Int) (position cumulative : Int)
    (hle : position ≤ cumulative + ws.sum) (hgt : cumulative < position) :
    (Router.selectLoop ws position cumulative).isSome := by
  induction ws generalizing cumulative with
  | nil => simp at hle; omega
  | cons w t ih =>
    rw [Router.selectLoop]
    by_cases h : position ≤ cumulative + w
    · simp [h]
    · rw [if_neg h, Option.isSome_map']
      exact ih (cumulative + w) (by rw [List.sum_cons] at hle; omega) (by omega)

/-- C9: whenever the configured weights sum to a total `≤ 0`, `get_next_server`
raises the `InvalidConfiguration` error and never returns a selected backend,
for every counter outcome and wall-clock value. -/
theorem router_invalid_configuration (servers : List String) (weights : List Int)
    (counter : Option Nat) (wallClockMs : Nat) (h : weights.sum ≤ 0) :
    Router.get_next_server servers weights counter wallClockMs =
      Except.error Router.RouteError.invalidConfiguration := by
  unfold Router.get_next_server
  rw [if_pos h]

/-- Witness for `router_invalid_configuration` at weights `[0]`. -/
theorem router_invalid_configuration_witness :
    Router.get_next_server ["server1"] [0] (some 0) 0 =
      Except.error Router.RouteError.invalidConfiguration :=
  router_invalid_configuration ["server1"] [0] (some 0) 0 (by decide)

/-- C10: with a positive total weight, the cumulative walk always returns a
backend inside the loop (position `(c mod total) + 1` lies in `[1, total]`),
so the trailing fallback branch that returns `servers[0]` with a warning is
unreachable: no successful selection is marked with the fallback branch. -/
theorem router_fallback_branch_unreachable (servers : List String) (weights : List Int)
    (counter : Option Nat) (wallClockMs : Nat) (hpos : 0 < weights.sum) :
    (Router.selectLoop weights
        ((counter.getD (wallClockMs % 1000) : Int) % weights.sum + 1) 0).isSome
    ∧ ((Router.get_next_server servers weights counter wallClockMs).toOption.all
        (fun sel => !sel.usedFallbackBranch)) = true := by
  have h0 : (0:Int) ≤ (counter.getD (wallClockMs % 1000) : Int) % weights.sum :=
    Int.emod_nonneg _ (by omega)
  have h1 : (counter.getD (wallClockMs % 1000) : Int) % weights.sum < weights.sum :=
    Int.emod_lt_of_pos _ hpos
  have hloop := selectLoop_isSome weights
    ((counter.getD (wallClockMs % 1000) : Int) % weights.sum + 1) 0 (by omega) (by omega)
  refine ⟨hloop, ?_⟩
  obtain ⟨i, hi⟩ := Option.isSome_iff_exists.mp hloop
  unfold Router.get_next_server
  rw [if_neg (by omega)]
  simp only [hi]
  cases h2 : servers.get? i <;> simp only [h2] <;> rfl

/-- Witness for `router_fallback_branch_unreachable` at weights `[1]`. -/
theorem router_fallback_branch_unreachable_witness :
    (Router.selectLoop [1]
        (((some 0 : Option Nat).getD (0 % 1000) : Int) % [(1:Int)].sum + 1) 0).isSome
    ∧ ((Router.get_next_server ["server1"] [1] (some 0) 0).toOption.all
        (fun sel => !sel.usedFallbackBranch)) = true :=
  router_fallback_branch_unreachable ["server1"] [1] (some 0) 0 (by decide)

/-- C1: with weights `[5,3,2]` (total 10) and counter `c < 10`, the selector
computes position `(c mod 10) + 1` and the cumulative walk yields backend 0
for `c ∈ [0,4]`, backend 1 for `c ∈ [5,7]`, backend 2 for `c ∈ [8,9]`; over
the full 10-value cycle each backend is chosen exactly its weight many
times (5, 3 and 2 times). -/
theorem router_weighted_cycle (s0 s1 s2 : String) (c : Nat) (hc : c < 10) :
    Router.get_next_server [s0, s1, s2] [5, 3, 2] (some c) 0 =
      Except.ok ⟨if c ≤ 4 then s0 else if c ≤ 7 then s1 else s2, c + 1, false⟩
    ∧ (List.range 10).countP
        (fun x => Router.selectLoop [5, 3, 2] ((x : Int) % 10 + 1) 0 == some 0) = 5
    ∧ (List.range 10).countP
        (fun x => Router.selectLoop [5, 3, 2] ((x : Int) % 10 + 1) 0 == some 1) = 3
    ∧ (List.range 10).countP
        (fun x => Router.selectLoop [5, 3, 2] ((x : Int) % 10 + 1) 0 == some 2) = 2 := by
  refine ⟨?_, by decide, by decide, by decide⟩
  interval_cases c <;> rfl

/-- Witness for `router_weighted_cycle` at `c = 0`. -/
theorem router_weighted_cycle_witness :
    Router.get_next_server ["b0", "b1", "b2"] [5, 3, 2] (some 0) 0 =
      Except.ok ⟨if 0 ≤ 4 then "b0" else if 0 ≤ 7 then "b1" else "b2", 0 + 1, false⟩
    ∧ (List.range 10).countP
        (fun x => Router.selectLoop [5, 3, 2] ((x : Int) % 10 + 1) 0 == some 0) = 5
    ∧ (List.range 10).countP
        (fun x => Router.selectLoop [5, 3, 2] ((x : Int) % 10 + 1) 0 == some 1) = 3
    ∧ (List.range 10).countP
        (fun x => Router.selectLoop [5, 3, 2] ((x : Int) % 10 + 1) 0 == some 2) = 2 :=
  router_weighted_cycle "b0" "b1" "b2" 0 (by decide)

/-- C6 counterexample: when the counter collaborator fails, the selector does
proceed with the fallback counter `wallClockMs % 1000`, but the returned
routing decision is byte-for-byte identical to an exact selection made with
the same counter value, and its fallback marker is `false` — the degraded
path is NOT tagged in the result, so it is not distinguishable by the
caller. -/
theorem router_fallback_untagged_cex :
    Router.get_next_server ["server1", "server2", "server3"] [5, 3, 2] none 1000 =
      Router.get_next_server ["server1", "server2", "server3"] [5, 3, 2] (some 0) 1000
    ∧ Router.get_next_server ["server1", "server2", "server3"] [5, 3, 2] none 1000 =
        Except.ok ⟨"server1", 1, false⟩ := by
  exact ⟨rfl, rfl⟩

/-- C6 amended: on counter-collaborator failure the selector proceeds using
the fallback counter value `wallClockMs % 1000` instead of failing, and the
routing decision it returns is exactly the one an exact counter with that
same value would produce — in particular the output carries no tag that
distinguishes a degraded (fallback) selection from an exact one. -/
theorem router_fallback_counter_used (servers : List String) (weights : List Int)
    (wallClockMs : Nat) :
    Router.get_next_server servers weights none wallClockMs =
      Router.get_next_server servers weights (some (wallClockMs % 1000)) wallClockMs := rfl

namespace Activity

/-- Python `list.index(x)`: position of the first occurrence, `none` when the
element is absent (a raised `ValueError`). -/
def pyIndex {α : Type} [DecidableEq α] (x : α) : List α → Option Nat
  | [] => none
  | y :: t => if y = x then some 0 else (pyIndex x t).map Nat.succ

/-- One `update_endpoint_weights_and_capacities` call issued by
`ASGClass.update_endpoint`: the backend (server) suffix of the endpoint name
and the requested `DesiredInstanceCount`. -/
structure EndpointRequest where
  server : String
  count : Int
  deriving DecidableEq

/-- The `elif delta < 0` loop of `ASGClass.update_scaling`, walking
`(server, currentInstanceCount)` pairs in list order with the running
`delta`: a backend whose count exceeds `-delta` gets `count + delta` and the
loop breaks; a backend with a positive count not exceeding `-delta` gets 0
and its count is folded back into `delta`; other backends are skipped. -/
def scaleDownLoop : List (String × Nat) → Int → List EndpointRequest
  | [], _ => []
  | (s, c) :: rest, delta =>
    if (c : Int) > -delta then [⟨s, (c : Int) + delta⟩]
    else if 0 < c then ⟨s, 0⟩ :: scaleDownLoop rest (delta + c)
    else scaleDownLoop rest delta

/-- The method `ASGClass.update_scaling`: computes
`delta = desiredCapacity - actualCapacity` and issues control-plane requests.
Scale up with an all-zero pool targets `servers[weights.index(1)]` with
`delta` instances (a missing weight 1 raises `ValueError`, an out-of-range
index raises `IndexError`: both `none`); scale up otherwise requests
`currentInstanceCount[i] + delta` for every server in list order; scale down
runs `scaleDownLoop`. A `counts` list shorter than `servers` raises
`IndexError` in the loops (`none`). The returned list is the ordered
sequence of issued requests. -/
def update_scaling (servers : List String) (counts : List Nat) (weights : List Int)
    (desired actual : Int) : Option (List EndpointRequest) :=
  let delta : Int := desired - actual
  if 0 < delta then
    if counts.sum = 0 then
      match pyIndex 1 weights with
      | none => none
      | some idx =>
        match servers.get? idx with
        | some s => some [⟨s, delta⟩]
        | none => none
    else
      if counts.length < servers.length then none
      else some ((servers.zip counts).map (fun p => ⟨p.1, (p.2 : Int) + delta⟩))
  else if delta < 0 then
    if counts.length < servers.length then none
    else some (scaleDownLoop (servers.zip counts) delta)
  else some []

/-- The fields of the per-dimension scaling state record that
`asg-activity-lambda.py` reads or writes (the pass-through identification
fields are omitted). The failure-reason field is spelled `failureResaon`
exactly as in the source. -/
structure ScalingState where
  desiredCapacity : Int
  actualCapacity : Int
  scalingStatus : String
  failureResaon : String
  lastModified : Int
  deriving DecidableEq

/-- A PATCH request body: each of the three optional keys of the
capacity-declare input. -/
structure PatchBody where
  actualCapacity : Option Int
  desiredCapacity : Option Int
  scalingStatus : Option String
  deriving DecidableEq

/-- The method `ASGClass.patch_state`: applies the body to the state; a declared
`desiredCapacity` is only accepted when the current status is neither
`InProgress` nor `Pending`, and a positive accepted value sets the status to
`Pending` and triggers `update_scaling`. The boolean records whether
`update_scaling` was invoked. -/
def patch_state (st : ScalingState) (body : PatchBody) : ScalingState × Bool :=
  let st1 := match body.actualCapacity with
    | some a => { st with actualCapacity := a }
    | none => st
  let (st2, call) := match body.desiredCapacity with
    | some d =>
      if st1.scalingStatus = "InProgress" ∨ st1.scalingStatus = "Pending" then (st1, false)
      else
        if 0 < d then ({ st1 with desiredCapacity := d, scalingStatus := "Pending" }, true)
        else ({ st1 with desiredCapacity := d }, false)
    | none => (st1, false)
  match body.scalingStatus with
  | some s => ({ st2 with scalingStatus := s }, call)
  | none => (st2, call)

/-- The staleness message written by `lambda_handler` (spelling as in the
source). -/
def staleMessage : String :=
  "Scaling activity stayed in Pending or InProgress for more than 25 minutes"

/-- The GET branch of `lambda_handler`: when `desiredCapacity >= 0`, a
`Successful`/`Failed` state whose desired and actual capacities disagree
re-enters `Pending` (triggering `update_scaling`, recorded in the boolean),
and a `Pending`/`InProgress` state whose `lastModified` is older than
25 minutes is forced to `Failed` (with the staleness reason) or `Successful`
according to whether desired and actual disagree. -/
def reconcileGet (st : ScalingState) (nowMs : Int) : ScalingState × Bool :=
  if 0 ≤ st.desiredCapacity then
    let (st1, call) :=
      if (st.scalingStatus = "Successful" ∨ st.scalingStatus = "Failed")
          ∧ st.desiredCapacity ≠ st.actualCapacity then
        ({ st with scalingStatus := "Pending" }, true)
      else (st, false)
    let st2 :=
      if st1.lastModified < nowMs - 25 * 60 * 1000
          ∧ (st1.scalingStatus = "Pending" ∨ st1.scalingStatus = "InProgress") then
        if st1.desiredCapacity ≠ st1.actualCapacity then
          { st1 with scalingStatus := "Failed", failureResaon := staleMessage }
        else { st1 with scalingStatus := "Successful" }
      else st1
    (st2, call)
  else (st, false)

/-- The tail of `lambda_handler` common to every handled request: clear
`failureResaon` unless the status is `Failed`, then `write_state` refreshes
`lastModified` to the current wall clock before persisting. -/
def finalizeState (st : ScalingState) (nowMs : Int) : ScalingState :=
  let st1 := if st.scalingStatus ≠ "Failed" then { st with failureResaon := "" } else st
  { st1 with lastModified := nowMs }

/-- The handler `lambda_handler` on a PATCH request with a body: `patch_state` followed by
the persistence tail. Returns the persisted state and whether
`update_scaling` ran. -/
def handlePatch (st : ScalingState) (body : PatchBody) (nowMs : Int) : ScalingState × Bool :=
  let (st1, call) := patch_state st body
  (finalizeState st1 nowMs, call)

/-- The handler `lambda_handler` on a GET request: `reconcileGet` followed by the
persistence tail. -/
def handleGet (st : ScalingState) (nowMs : Int) : ScalingState × Bool :=
  let (st1, call) := reconcileGet st nowMs
  (finalizeState st1 nowMs, call)

end Activity

/-- With a non-positive running delta, every request the scale-down walk
issues asks for a non-negative instance count. -/
theorem scaleDownLoop_nonneg (l : List (String × Nat)) (d : Int) (hd : d ≤ 0) :
    ∀ r ∈ Activity.scaleDownLoop l d, 0 ≤ r.count := by
  induction l generalizing d with
  | nil => intro r hr; simp [Activity.scaleDownLoop] at hr
  | cons p t ih =>
    obtain ⟨s, c⟩ := p
    intro r hr
    rw [Activity.scaleDownLoop] at hr
    by_cases h1 : (c : Int) > -d
    · rw [if_pos h1] at hr
      simp at hr
      subst hr
      simp
      omega
    · rw [if_neg h1] at hr
      by_cases h2 : 0 < c
      · rw [if_pos h2] at hr
        rcases List.mem_cons.mp hr with h | h
        · subst h; simp
        · exact ih (d + c) (by omega) r h
      · rw [if_neg h2] at hr
        exact ih d hd r hr
  
/-- Every request the scale-down walk issues targets a backend of the walked
list whose current instance count is positive (zero-count backends are
skipped without a request). -/
theorem scaleDownLoop_targets_positive (l : List (String × Nat)) (d : Int) (hd : d ≤ 0) :
    ∀ r ∈ Activity.scaleDownLoop l d, ∃ p ∈ l, p.1 = r.server ∧ 0 < p.2 := by
  induction l generalizing d with
  | nil => intro r hr; simp [Activity.scaleDownLoop] at hr
  | cons p t ih =>
    obtain ⟨s, c⟩ := p
    intro r hr
    rw [Activity.scaleDownLoop] at hr
    by_cases h1 : (c : Int) > -d
    · rw [if_pos h1] at hr
      simp at hr
      subst hr
      exact ⟨(s, c), List.mem_cons_self _ _, rfl, by omega⟩
    · rw [if_neg h1] at hr
      by_cases h2 : 0 < c
      · rw [if_pos h2] at hr
        rcases List.mem_cons.mp hr with h | h
        · subst h; exact ⟨(s, c), List.mem_cons_self _ _, rfl, h2⟩
        · obtain ⟨q, hq, hq1, hq2⟩ := ih (d + c) (by omega) r h
          exact ⟨q, List.mem_cons_of_mem _ hq, hq1, hq2⟩
      · rw [if_neg h2] at hr
        obtain ⟨q, hq, hq1, hq2⟩ := ih d hd r hr
        exact ⟨q, List.mem_cons_of_mem _ hq, hq1, hq2⟩

/-- Every request of the scale-down walk except possibly the last asks for
exactly 0 (the positive partial-reduction request ends the walk). -/
theorem scaleDownLoop_zero_before_last (l : List (String × Nat)) (d : Int) :
    ∀ r ∈ (Activity.scaleDownLoop l d).dropLast, r.count = 0 := by
  induction l generalizing d with
  | nil => intro r hr; simp [Activity.scaleDownLoop] at hr
  | cons p t ih =>
    obtain ⟨s, c⟩ := p
    intro r hr
    rw [Activity.scaleDownLoop] at hr
    by_cases h1 : (c : Int) > -d
    · rw [if_pos h1] at hr
      simp at hr
    · rw [if_neg h1] at hr
      by_cases h2 : 0 < c
      · rw [if_pos h2] at hr
        cases hrest : Activity.scaleDownLoop t (d + c) with
        | nil => rw [hrest] at hr; simp at hr
        | cons q qs =>
          rw [hrest, List.dropLast_cons₂] at hr
          rcases List.mem_cons.mp hr with h | h
          · subst h; rfl
          · exact ih (d + c) r (by rw [hrest]; exact h)
      · rw [if_neg h2] at hr
        exact ih d r hr

/-- C3: for every starting `currentInstanceCount` vector and every negative
delta whose magnitude does not exceed the total current capacity, the
scale-down redistribution succeeds (raises nothing), never requests a
negative instance count, asks for 0 on every request except possibly the
final (positive partial-reduction) one, and only ever targets backends whose
current instance count is positive — zero-count backends are skipped without
a request. -/
theorem activity_scale_down_safe (servers : List String) (counts : List Nat)
    (weights : List Int) (desired actual : Int)
    (hneg : desired - actual < 0)
    (hmag : -(desired - actual) ≤ (counts.sum : Int))
    (hlen : servers.length = counts.length) :
    ∃ reqs, Activity.update_scaling servers counts weights desired actual = some reqs
      ∧ (∀ r ∈ reqs, 0 ≤ r.count)
      ∧ (∀ r ∈ reqs.dropLast, r.count = 0)
      ∧ (∀ r ∈ reqs, ∃ p ∈ servers.zip counts, p.1 = r.server ∧ 0 < p.2) := by
  refine ⟨Activity.scaleDownLoop (servers.zip counts) (desired - actual), ?_, ?_, ?_, ?_⟩
  · unfold Activity.update_scaling
    rw [if_neg (by omega), if_pos (by omega), if_neg (by omega)]
  · exact scaleDownLoop_nonneg _ _ (by omega)
  · exact scaleDownLoop_zero_before_last _ _
  · exact scaleDownLoop_targets_positive _ _ (by omega)

/-- Witness for `activity_scale_down_safe`: two backends with counts `[2,3]`
scaling from 5 down to 3. -/
theorem activity_scale_down_safe_witness :
    ∃ reqs, Activity.update_scaling ["b0", "b1"] [2, 3] [1, 1] 3 5 = some reqs
      ∧ (∀ r ∈ reqs, 0 ≤ r.count)
      ∧ (∀ r ∈ reqs.dropLast, r.count = 0)
      ∧ (∀ r ∈ reqs, ∃ p ∈ (["b0", "b1"] : List String).zip [2, 3],
            p.1 = r.server ∧ 0 < p.2) :=
  activity_scale_down_safe ["b0", "b1"] [2, 3] [1, 1] 3 5 (by decide) (by decide) (by decide)

/-- When Python's `list.index` returns position `i` for `x`, the list holds
`x` at position `i`. -/
theorem pyIndex_get {α : Type} [DecidableEq α] (x : α) (l : List α) (i : Nat)
    (h : Activity.pyIndex x l = some i) : l.get? i = some x := by
  induction l generalizing i with
  | nil => simp [Activity.pyIndex] at h
  | cons y t ih =>
    rw [Activity.pyIndex] at h
    by_cases he : y = x
    · rw [if_pos he] at h
      simp at h
      subst h
      simp [he]
    · rw [if_neg he] at h
      cases hp : Activity.pyIndex x t with
      | none => rw [hp] at h; simp at h
      | some j =>
        rw [hp] at h
        simp at h
        subst h
        simpa using ih j hp

/-- C2: for a scale-up (`delta = desired - actual > 0`): when every backend's
`currentInstanceCount` is 0, exactly one control-plane request is issued,
asking for `delta` instances on the backend at the position of the first
weight equal to exactly 1 (and that position's weight is indeed 1);
otherwise one request is issued per backend in list order, each asking for
that backend's `currentInstanceCount + delta` — delta applied per backend,
not split across the pool. -/
theorem activity_scale_up (servers : List String) (counts : List Nat)
    (weights : List Int) (desired actual : Int) (hpos : 0 < desired - actual) :
    (counts.sum = 0 →
      ∀ idx, Activity.pyIndex 1 weights = some idx →
        ∀ s, servers.get? idx = some s →
          Activity.update_scaling servers counts weights desired actual =
              some [⟨s, desired - actual⟩]
            ∧ weights.get? idx = some 1)
    ∧ (counts.sum ≠ 0 → counts.length = servers.length →
        Activity.update_scaling servers counts weights desired actual =
          some ((servers.zip counts).map
            (fun p => ⟨p.1, (p.2 : Int) + (desired - actual)⟩))) := by
  constructor
  · intro hz idx hidx s hs
    refine ⟨?_, pyIndex_get 1 weights idx hidx⟩
    unfold Activity.update_scaling
    rw [if_pos (by omega), if_pos hz]
    simp only [hidx, hs]
  · intro hnz hlen
    unfold Activity.update_scaling
    rw [if_pos (by omega), if_neg hnz, if_neg (by omega)]

/-- Witness for `activity_scale_up`: an all-zero pool `[0,0]` with weights
`[3,1]` scaling from 0 to 2. -/
theorem activity_scale_up_witness :
    (([0, 0] : List Nat).sum = 0 →
      ∀ idx, Activity.pyIndex 1 [3, 1] = some idx →
        ∀ s, (["b0", "b1"] : List String).get? idx = some s →
          Activity.update_scaling ["b0", "b1"] [0, 0] [3, 1] 2 0 = some [⟨s, 2 - 0⟩]
            ∧ ([(3 : Int), 1] : List Int).get? idx = some 1)
    ∧ (([0, 0] : List Nat).sum ≠ 0 → ([0, 0] : List Nat).length = (["b0", "b1"] : List String).length →
        Activity.update_scaling ["b0", "b1"] [0, 0] [3, 1] 2 0 =
          some (((["b0", "b1"] : List String).zip [0, 0]).map
            (fun p => ⟨p.1, (p.2 : Int) + (2 - 0)⟩))) :=
  activity_scale_up ["b0", "b1"] [0, 0] [3, 1] 2 0 (by decide)

/-- C5: a state whose status is `Pending` or `InProgress` and whose
`lastModified` lies 26 minutes in the past transitions to `Failed` with the
human-readable staleness reason recorded in the failure-reason field when
desired and actual capacities disagree, and to `Successful` when they agree;
with `lastModified` only 24 minutes in the past the status does not change. -/
theorem activity_staleness (st : Activity.ScalingState) (nowMs : Int)
    (hstatus : st.scalingStatus = "Pending" ∨ st.scalingStatus = "InProgress")
    (hdes : 0 ≤ st.desiredCapacity) :
    (st.lastModified = nowMs - 26 * 60 * 1000 →
      (st.desiredCapacity ≠ st.actualCapacity →
        (Activity.handleGet st nowMs).1.scalingStatus = "Failed"
        ∧ (Activity.handleGet st nowMs).1.failureResaon = Activity.staleMessage)
      ∧ (st.desiredCapacity = st.actualCapacity →
        (Activity.handleGet st nowMs).1.scalingStatus = "Successful"))
    ∧ (st.lastModified = nowMs - 24 * 60 * 1000 →
        (Activity.handleGet st nowMs).1.scalingStatus = st.scalingStatus) := by
  constructor
  · intro h26
    have hold : st.lastModified < nowMs - 1500000 := by omega
    constructor
    · intro hne
      rcases hstatus with h | h <;>
        simp [Activity.handleGet, Activity.reconcileGet, Activity.finalizeState,
          h, hdes, hold, hne]
    · intro heq
      have hdes2 : 0 ≤ st.actualCapacity := heq ▸ hdes
      rcases hstatus with h | h <;>
        simp [Activity.handleGet, Activity.reconcileGet, Activity.finalizeState,
          h, hdes, hdes2, hold, heq]
  · intro h24
    have hyoung : ¬(st.lastModified < nowMs - 1500000) := by omega
    rcases hstatus with h | h <;>
      simp [Activity.handleGet, Activity.reconcileGet, Activity.finalizeState,
        h, hdes, hyoung]

/-- Witness for `activity_staleness`: a `Pending` state last modified
26 minutes before a poll at t = 2000000 ms. -/
theorem activity_staleness_witness :
    ((Activity.ScalingState.mk 1 0 "Pending" "" 440000).lastModified =
        2000000 - 26 * 60 * 1000 →
      ((Activity.ScalingState.mk 1 0 "Pending" "" 440000).desiredCapacity ≠
          (Activity.ScalingState.mk 1 0 "Pending" "" 440000).actualCapacity →
        (Activity.handleGet (Activity.ScalingState.mk 1 0 "Pending" "" 440000)
            2000000).1.scalingStatus = "Failed"
        ∧ (Activity.handleGet (Activity.ScalingState.mk 1 0 "Pending" "" 440000)
            2000000).1.failureResaon = Activity.staleMessage)
      ∧ ((Activity.ScalingState.mk 1 0 "Pending" "" 440000).desiredCapacity =
          (Activity.ScalingState.mk 1 0 "Pending" "" 440000).actualCapacity →
        (Activity.handleGet (Activity.ScalingState.mk 1 0 "Pending" "" 440000)
            2000000).1.scalingStatus = "Successful"))
    ∧ ((Activity.ScalingState.mk 1 0 "Pending" "" 440000).lastModified =
        2000000 - 24 * 60 * 1000 →
      (Activity.handleGet (Activity.ScalingState.mk 1 0 "Pending" "" 440000)
          2000000).1.scalingStatus =
        (Activity.ScalingState.mk 1 0 "Pending" "" 440000).scalingStatus) :=
  activity_staleness (Activity.ScalingState.mk 1 0 "Pending" "" 440000) 2000000
    (Or.inl rfl) (by decide)

/-- C7 counterexample: a capacity declare (`desiredCapacity := 5`) against an
`InProgress` state leaves `desiredCapacity` untouched and triggers no
redistribution, but the persisted record IS mutated: `write_state` refreshes
`lastModified` on every handled request, so the stored record differs from
the original. -/
theorem activity_patch_rejected_cex :
    (Activity.handlePatch (Activity.ScalingState.mk 2 2 "InProgress" "" 0)
        (Activity.PatchBody.mk none (some 5) none) 1000).2 = false
    ∧ (Activity.handlePatch (Activity.ScalingState.mk 2 2 "InProgress" "" 0)
        (Activity.PatchBody.mk none (some 5) none) 1000).1.desiredCapacity = 2
    ∧ (Activity.handlePatch (Activity.ScalingState.mk 2 2 "InProgress" "" 0)
        (Activity.PatchBody.mk none (some 5) none) 1000).1 ≠
        Activity.ScalingState.mk 2 2 "InProgress" "" 0 := by
  refine ⟨rfl, rfl, ?_⟩
  intro h
  exact absurd (congrArg Activity.ScalingState.lastModified h) (by decide)

/-- C7 amended: while the status is `InProgress` or `Pending`, a request body
declaring a new `desiredCapacity` is rejected — `desiredCapacity` keeps its
old value, `update_scaling` is not invoked, and every persisted field is
unchanged except that `lastModified` is refreshed to the current wall clock
(as on every handled request) and the failure reason is cleared (the status
is not `Failed`). -/
theorem activity_patch_rejected (st : Activity.ScalingState) (v : Int) (nowMs : Int)
    (hstatus : st.scalingStatus = "InProgress" ∨ st.scalingStatus = "Pending") :
    Activity.handlePatch st (Activity.PatchBody.mk none (some v) none) nowMs =
      ({ st with lastModified := nowMs, failureResaon := "" }, false) := by
  rcases hstatus with h | h <;>
    simp [Activity.handlePatch, Activity.patch_state, Activity.finalizeState, h]

/-- Witness for `activity_patch_rejected`: declaring capacity 5 against an
`InProgress` state at t = 1000 ms. -/
theorem activity_patch_rejected_witness :
    Activity.handlePatch (Activity.ScalingState.mk 2 2 "InProgress" "x" 0)
        (Activity.PatchBody.mk none (some 5) none) 1000 =
      ({ Activity.ScalingState.mk 2 2 "InProgress" "x" 0 with
          lastModified := 1000, failureResaon := "" }, false) :=
  activity_patch_rejected (Activity.ScalingState.mk 2 2 "InProgress" "x" 0) 5 1000
    (Or.inl rfl)

namespace EPState

/-- The value `math.gcd(*counts)`: the gcd of all entries (0 for an empty or all-zero
list). -/
def gcdAll : List Nat → Nat
  | [] => 0
  | c :: t => Nat.gcd c (gcdAll t)

/-- The weight-rebalancing block of `handle_endpoint_status_change` run on
convergence: `g = gcd(*currentInstanceCount)`; if `g != 0` the loop over
`range(len(weights))` overwrites `weights[i]` with `currentInstanceCount[i]
// g` (an `IndexError` — `none` — when the counts list is shorter than the
weights list); afterwards, if the weight vector sums to 0, `weights[0]` is
forced to 1 (an `IndexError` on an empty list). -/
def rebalanceWeights (counts weights : List Nat) : Option (List Nat) :=
  let g := gcdAll counts
  let w1opt : Option (List Nat) :=
    if g ≠ 0 then
      if counts.length < weights.length then none
      else some ((counts.take weights.length).map (fun c => c / g))
    else some weights
  match w1opt with
  | none => none
  | some w1 =>
    if w1.sum = 0 then
      match w1 with
      | [] => none
      | _ :: t => some (1 :: t)
    else some w1

/-- The in-memory outcome of the `IN_SERVICE` branch of
`handle_endpoint_status_change`: the updated instance counts and weights, the
recomputed `actualCapacity`, the new `scalingStatus`, and whether the active
scale-down call (`DesiredInstanceCount = count - 1`) was issued. -/
structure InServiceResult where
  counts : List Nat
  weights : List Nat
  actualCapacity : Int
  scalingStatus : String
  decrementCall : Bool
  deriving DecidableEq

/-- The `IN_SERVICE` branch of `handle_endpoint_status_change`:
`index = servers.index(server)` (a missing server raises `ValueError`), the
reported `DesiredInstanceCount` replaces `currentInstanceCount[index]`,
`actualCapacity` becomes the sum of counts, and then: desired below actual
with a positive reported count issues the decrement call and sets
`InProgress`; desired equal to actual runs the rebalancer and sets
`Successful`; otherwise the status becomes `InProgress`. `none` models a
raised exception (nothing persisted). -/
def handleInService (servers : List String) (counts weights : List Nat)
    (desired : Int) (server : String) (reported : Nat) : Option InServiceResult :=
  match Activity.pyIndex server servers with
  | none => none
  | some index =>
    if index < counts.length then
      let counts2 := counts.set index reported
      let actual : Int := counts2.sum
      if desired < actual ∧ 0 < reported then
        some ⟨counts2, weights, actual, "InProgress", true⟩
      else if desired = actual then
        match rebalanceWeights counts2 weights with
        | none => none
        | some w2 => some ⟨counts2, w2, actual, "Successful", false⟩
      else some ⟨counts2, weights, actual, "InProgress", false⟩
    else none

/-- The `scalingStatus` persisted after the `IN_SERVICE` branch: the branch's
new status, or the stored one unchanged when the branch raised before
`write_state`. -/
def statusAfterInService (servers : List String) (counts weights : List Nat)
    (desired : Int) (status : String) (server : String) (reported : Nat) : String :=
  match handleInService servers counts weights desired server reported with
  | some r => r.scalingStatus
  | none => status

end EPState

/-- The gcd `gcd(*l)` divides every entry of `l`. -/
theorem gcdAll_dvd (l : List Nat) : ∀ c ∈ l, EPState.gcdAll l ∣ c := by
  induction l with
  | nil => intro c hc; simp at hc
  | cons x t ih =>
    intro c hc
    rcases List.mem_cons.mp hc with h | h
    · subst h; exact Nat.gcd_dvd_left _ _
    · exact dvd_trans (Nat.gcd_dvd_right _ _) (ih c h)

/-- The gcd `gcd(*l)` of an all-zero list is 0. -/
theorem gcdAll_all_zero (l : List Nat) (hall : ∀ c ∈ l, c = 0) :
    EPState.gcdAll l = 0 := by
  induction l with
  | nil => rfl
  | cons x t ih =>
    rw [EPState.gcdAll, hall x (List.mem_cons_self _ _),
      ih (fun c hc => hall c (List.mem_cons_of_mem _ hc))]
    rfl

/-- A non-zero `gcd(*l)` means some entry of `l` is non-zero. -/
theorem gcdAll_ne_zero (l : List Nat) (h : EPState.gcdAll l ≠ 0) :
    ∃ c ∈ l, c ≠ 0 := by
  by_contra hall
  push_neg at hall
  exact h (gcdAll_all_zero l hall)

/-- A natural-number list with a non-zero member has a non-zero sum. -/
theorem sum_ne_zero_of_mem_ne_zero (l : List Nat) (x : Nat) (hx : x ∈ l)
    (hxz : x ≠ 0) : l.sum ≠ 0 := by
  have hle := List.single_le_sum (fun y _ => Nat.zero_le y) x hx
  omega

/-- C4 counterexample: a convergence rebalance over counts `[0,0,0]` has
`g = gcd = 0`, so the weight-overwriting loop is skipped and the pre-existing
weights `[5,3,2]` (whose sum is not 0) survive untouched — the result is NOT
`[1,0,0]`. -/
theorem epstate_rebalance_cex :
    EPState.rebalanceWeights [0, 0, 0] [5, 3, 2] = some [5, 3, 2]
    ∧ EPState.rebalanceWeights [0, 0, 0] [5, 3, 2] ≠ some [1, 0, 0] := by
  exact ⟨rfl, by decide⟩

/-- C4 amended: the rebalancer computes `g = gcd` of all counts and, when
`g ≠ 0` (given equally long lists), replaces the whole weight vector by
`counts[i] / g` — whose sum is then necessarily non-zero, so the force-to-1
step does not fire; counts `[6,9,3]` yield weights `[2,3,1]`. When all
counts are 0 (`g = 0`) the pre-existing weights are left unchanged, except
that a pre-existing weight vector summing to 0 has its first entry forced to
1: counts `[0,0,0]` over weights `[5,3,2]` keep `[5,3,2]`, and over weights
`[0,0,0]` give `[1,0,0]`. -/
theorem epstate_rebalance_amended (counts weights : List Nat)
    (hlen : counts.length = weights.length) (hg : EPState.gcdAll counts ≠ 0) :
    EPState.rebalanceWeights counts weights =
      some (counts.map (fun c => c / EPState.gcdAll counts))
    ∧ EPState.rebalanceWeights [6, 9, 3] [5, 3, 2] = some [2, 3, 1]
    ∧ EPState.rebalanceWeights [0, 0, 0] [5, 3, 2] = some [5, 3, 2]
    ∧ EPState.rebalanceWeights [0, 0, 0] [0, 0, 0] = some [1, 0, 0] := by
  refine ⟨?_, by decide, by decide, by decide⟩
  have hnlt : ¬(counts.length < weights.length) := by omega
  have htake : counts.take weights.length = counts := by rw [← hlen, List.take_length]
  have hsum : (counts.map (fun c => c / EPState.gcdAll counts)).sum ≠ 0 := by
    obtain ⟨c, hc, hcz⟩ := gcdAll_ne_zero counts hg
    have hdvd := gcdAll_dvd counts c hc
    have hgle : EPState.gcdAll counts ≤ c := Nat.le_of_dvd (Nat.pos_of_ne_zero hcz) hdvd
    have hdiv : 0 < c / EPState.gcdAll counts :=
      Nat.div_pos hgle (Nat.pos_of_ne_zero hg)
    exact sum_ne_zero_of_mem_ne_zero _ (c / EPState.gcdAll counts)
      (List.mem_map_of_mem _ hc) (by omega)
  simp only [EPState.rebalanceWeights, if_pos hg, if_neg hnlt, htake, if_neg hsum]

/-- Setting position `i` of a list to the value already held
there leaves the list unchanged. -/
theorem set_getD_self (l : List Nat) (i : Nat) : l.set i (l.getD i 0) = l := by
  induction l generalizing i with
  | nil => rfl
  | cons x t ih =>
    cases i with
    | zero => rfl
    | succ j =>
      have := ih j
      simp only [List.getD] at this
      simp only [List.getD, List.get?_cons_succ, List.set, this]

/-- Witness for `epstate_rebalance_amended`: counts `[6,9,3]` (gcd 3) over
weights `[1,1,1]`. -/
theorem epstate_rebalance_amended_witness :
    EPState.rebalanceWeights [6, 9, 3] [1, 1, 1] =
      some (([6, 9, 3] : List Nat).map (fun c => c / EPState.gcdAll [6, 9, 3]))
    ∧ EPState.rebalanceWeights [6, 9, 3] [5, 3, 2] = some [2, 3, 1]
    ∧ EPState.rebalanceWeights [0, 0, 0] [5, 3, 2] = some [5, 3, 2]
    ∧ EPState.rebalanceWeights [0, 0, 0] [0, 0, 0] = some [1, 0, 0] :=
  epstate_rebalance_amended [6, 9, 3] [1, 1, 1] (by decide) (by decide)

/-- C8: an `IN_SERVICE` event for a known backend that reports exactly the
instance count already stored, against a converged state
(`desiredCapacity = actualCapacity = sum of counts`) whose status is already
`Successful`, leaves the persisted `scalingStatus` at `Successful`: handling
the repeated identical event is idempotent with respect to `scalingStatus`. -/
theorem epstate_inservice_idempotent (servers : List String)
    (counts weights : List Nat) (desired : Int) (server : String)
    (idx reported : Nat)
    (hidx : Activity.pyIndex server servers = some idx)
    (hrep : counts.getD idx 0 = reported)
    (hconv : desired = (counts.sum : Int)) :
    EPState.statusAfterInService servers counts weights desired "Successful"
      server reported = "Successful" := by
  unfold EPState.statusAfterInService EPState.handleInService
  rw [hidx]
  by_cases hlt : idx < counts.length
  · have hset : counts.set idx reported = counts := by
      rw [← hrep]
      exact set_getD_self counts idx
    simp only [if_pos hlt, hset]
    have hnotlt : ¬(desired < (counts.sum : Int) ∧ 0 < reported) := by
      intro hcon
      omega
    rw [if_neg hnotlt, if_pos hconv]
    cases EPState.rebalanceWeights counts weights <;> rfl
  · simp only [if_neg hlt]

/-- Witness for `epstate_inservice_idempotent`: one backend holding 2
instances, desired capacity 2, event re-reporting count 2. -/
theorem epstate_inservice_idempotent_witness :
    EPState.statusAfterInService ["b0"] [2] [1] 2 "Successful" "b0" 2 =
      "Successful" :=
  epstate_inservice_idempotent ["b0"] [2] [1] 2 "b0" 0 2 rfl rfl (by decide)
